import Mathlib

/-!
Verification of the event validation pipeline of the `ruma-events` repository,
centred on the *m.room.name* event (`src/room/name.rs`) and the *m.typing*
event (`src/events/typing.rs`).

The Rust data types are shallowly embedded: Rust `String` becomes Lean
`String` (Rust `String::len` is the UTF-8 byte length, `String.utf8ByteSize`),
fallible functions return `Except`, serde-produced JSON is modelled by an
explicit `Json` inductive, and the serde derive behaviour dictated by the
attributes in the source (`tag`, `rename`, `skip_serializing_if`, `default`,
`deserialize_with`) is spelled out as explicit serializer and deserializer
functions.
-/

/-- A validation error carrying a human-readable reason string.
Embeds `InvalidInput` from the crate root. -/
structure InvalidInput where
  reason : String
deriving DecidableEq, Repr

/-- A JSON value, as produced and consumed by serde_json. -/
inductive Json where
  | null
  | str (s : String)
  | num (n : Int)
  | arr (elems : List Json)
  | obj (fields : List (String × Json))

/-- Key lookup in a JSON object's field list (serde_json map access). -/
def getKey : List (String × Json) → String → Option Json
  | [], _ => none
  | (k, v) :: rest, key => if k = key then some v else getKey rest key

/-- Lookup of a top-level key of a JSON value; `none` on non-objects. -/
def jsonLookup : Json → String → Option Json
  | Json.obj fields, key => getKey fields key
  | _, _ => none

/-- The list of top-level keys of a JSON value. -/
def jsonKeys : Json → List String
  | Json.obj fields => fields.map (fun p => p.1)
  | _ => []

/-- Extract a JSON string (structural deserialization of a string field,
also covering the opaque validated identifier types of `ruma_identifiers`,
which parse from and serialize to strings). -/
def Json.asStr : Json → Option String
  | Json.str s => some s
  | _ => none

/-- Deserialize a wire timestamp: the `ruma_serde::time::ms_since_unix_epoch`
codec reads a non-negative integer of milliseconds since the Unix epoch.
Modelled from the spec: the timestamp codec is an external collaborator
converting between the wire integer and an in-memory instant. -/
def Json.asTime : Json → Option Nat
  | Json.num (Int.ofNat n) => some n
  | _ => none

/-- Rust `Option::map` followed by `Option::transpose` on a `Result`:
turns an optional fallible result inside out. -/
def optionTranspose {ε α : Type} : Option (Except ε α) → Except ε (Option α)
  | none => Except.ok none
  | some (Except.ok a) => Except.ok (some a)
  | some (Except.error e) => Except.error e

/-- Embeds `ruma_identifiers::EventId`, an opaque validated string type. -/
abbrev EventId := String

/-- Embeds `ruma_identifiers::RoomId`, an opaque validated string type. -/
abbrev RoomId := String

/-- Embeds `ruma_identifiers::UserId`, an opaque validated string type. -/
abbrev UserId := String

/-- Embeds `std::time::SystemTime` as milliseconds since the Unix epoch,
which is how the wire codec encodes it. -/
abbrev SystemTime := Nat

/-- Modelled from the spec: the unsigned side-channel data is a mapping that
may include a numeric `age` (milliseconds since the event was received);
empty by default; omitted entirely from wire output when empty. The crate's
`UnsignedData` type itself is not part of the given sources. -/
structure UnsignedData where
  age : Option Int := none
deriving DecidableEq, Repr

/-- `UnsignedData::is_empty`: true when no field is populated. -/
def UnsignedData.is_empty (u : UnsignedData) : Bool :=
  u.age.isNone

/-- Serialization of `UnsignedData`: each populated field is emitted, absent
fields are omitted. -/
def UnsignedData.toJson (u : UnsignedData) : Json :=
  Json.obj (match u.age with
    | none => []
    | some n => [("age", Json.num n)])

/-- Structural deserialization of `UnsignedData` from a JSON object. -/
def UnsignedData.fromJson : Json → Option UnsignedData
  | Json.obj fields =>
    match getKey fields "age" with
    | none => some { age := none }
    | some (Json.num n) => some { age := some n }
    | some _ => none
  | _ => none

/-- The payload for `NameEvent` (`src/room/name.rs`, `NameEventContent`).
The name of the room; MUST NOT exceed 255 bytes. -/
structure NameEventContent where
  name : Option String
deriving DecidableEq, Repr

/-- `NameEventContent::new` (`src/room/name.rs` lines 92-100): matches on
`name.len()` (the byte length): 0 stores `None`, 1..=255 stores `Some(name)`,
anything longer is an `InvalidInput` error. -/
def NameEventContent.new (name : String) : Except InvalidInput NameEventContent :=
  if name.utf8ByteSize = 0 then
    Except.ok { name := none }
  else if name.utf8ByteSize ≤ 255 then
    Except.ok { name := some name }
  else
    Except.error { reason := "a room name cannot be more than 255 bytes" }

/-- Serde serialization of `NameEventContent`: a plain `Option<String>` field
serializes as `null` or a string under the key `"name"`. -/
def NameEventContent.toJson (c : NameEventContent) : Json :=
  Json.obj [("name", match c.name with
    | none => Json.null
    | some s => Json.str s)]

namespace raw

/-- `raw::NameEventContent` (`src/room/name.rs` lines 142-149): the
structurally-parsed payload, name already folded by the deserializer. -/
structure NameEventContent where
  name : Option String
deriving DecidableEq, Repr

/-- `raw::NameEvent` (`src/room/name.rs` lines 112-139): the
structurally-parsed envelope. -/
structure NameEvent where
  content : NameEventContent
  event_id : EventId
  origin_server_ts : SystemTime
  prev_content : Option NameEventContent
  room_id : Option RoomId
  sender : UserId
  state_key : String
  unsigned : UnsignedData
deriving DecidableEq, Repr

end raw

/-- Modelled from the spec: the behaviour of the
`#[serde(default, deserialize_with = "ruma_serde::empty_string_as_none")]`
attribute on `raw::NameEventContent::name` (the `empty_string_as_none` helper
itself lives in the external `ruma_serde` crate). An absent field defaults to
`none`; JSON `null` and the empty string are folded to `none`; any other
string is kept; a non-string, non-null value is a structural parse error. -/
def parseNameField : Option Json → Option (Option String)
  | none => some none
  | some Json.null => some none
  | some (Json.str s) => some (if s = "" then none else some s)
  | some _ => none

/-- Structural deserialization of `raw::NameEventContent` from JSON. -/
def raw.NameEventContent.fromJson : Json → Option raw.NameEventContent
  | Json.obj fields => (parseNameField (getKey fields "name")).map (fun n => { name := n })
  | _ => none

/-- `TryFromRaw for NameEventContent` (`src/room/name.rs` lines 71-82):
a `None` raw name validates to the no-name content, a `Some` raw name is
passed to `NameEventContent::new`. -/
def NameEventContent.try_from_raw (r : raw.NameEventContent) :
    Except InvalidInput NameEventContent :=
  match r.name with
  | none => Except.ok { name := none }
  | some name => NameEventContent.new name

/-- The typed `NameEvent` (`src/room/name.rs` lines 11-41). -/
structure NameEvent where
  content : NameEventContent
  event_id : EventId
  origin_server_ts : SystemTime
  prev_content : Option NameEventContent
  room_id : Option RoomId
  sender : UserId
  state_key : String
  unsigned : UnsignedData
deriving DecidableEq, Repr

/-- `TryFromRaw for NameEvent` (`src/room/name.rs` lines 50-69): validate
the content (`?` operator), validate the optional previous content through
`map`/`transpose` (`?` operator), then assemble the typed event copying all
metadata. The two matches are Rust's `?`: an error short-circuits. -/
def NameEvent.try_from_raw (r : raw.NameEvent) : Except InvalidInput NameEvent :=
  match NameEventContent.try_from_raw r.content with
  | Except.error e => Except.error e
  | Except.ok content =>
    match optionTranspose (r.prev_content.map NameEventContent.try_from_raw) with
    | Except.error e => Except.error e
    | Except.ok prev_content =>
      Except.ok
        { content := content
          event_id := r.event_id
          origin_server_ts := r.origin_server_ts
          prev_content := prev_content
          room_id := r.room_id
          sender := r.sender
          state_key := r.state_key
          unsigned := r.unsigned }

/-- Serde serialization of `NameEvent` under
`#[serde(rename = "m.room.name", tag = "type")]`: the internal tag is the
fixed literal `"m.room.name"`, fields follow in declaration order, and
`prev_content`, `room_id` and `unsigned` are omitted when absent or empty
(`skip_serializing_if`). -/
def NameEvent.toJson (e : NameEvent) : Json :=
  Json.obj
    ([("type", Json.str "m.room.name"),
      ("content", e.content.toJson),
      ("event_id", Json.str e.event_id),
      ("origin_server_ts", Json.num (Int.ofNat e.origin_server_ts))]
     ++ (match e.prev_content with
         | none => []
         | some p => [("prev_content", p.toJson)])
     ++ (match e.room_id with
         | none => []
         | some r => [("room_id", Json.str r)])
     ++ [("sender", Json.str e.sender),
         ("state_key", Json.str e.state_key)]
     ++ (if e.unsigned.is_empty then [] else [("unsigned", e.unsigned.toJson)]))

/-- Structural deserialization of `raw::NameEvent` from JSON: required fields
must be present with the right JSON type; `prev_content` and `room_id` are
optional; `unsigned` defaults to empty when absent (`#[serde(default)]`). -/
def raw.NameEvent.fromJson (j : Json) : Option raw.NameEvent :=
  match j with
  | Json.obj fields => do
    let cj ← getKey fields "content"
    let content ← raw.NameEventContent.fromJson cj
    let event_id ← (getKey fields "event_id").bind Json.asStr
    let origin_server_ts ← (getKey fields "origin_server_ts").bind Json.asTime
    let prev_content ← match getKey fields "prev_content" with
      | none => some none
      | some pj => (raw.NameEventContent.fromJson pj).map some
    let room_id ← match getKey fields "room_id" with
      | none => some none
      | some rj => rj.asStr.map some
    let sender ← (getKey fields "sender").bind Json.asStr
    let state_key ← (getKey fields "state_key").bind Json.asStr
    let unsigned ← match getKey fields "unsigned" with
      | none => some { age := none }
      | some uj => UnsignedData.fromJson uj
    some
      { content := content
        event_id := event_id
        origin_server_ts := origin_server_ts
        prev_content := prev_content
        room_id := room_id
        sender := sender
        state_key := state_key
        unsigned := unsigned }
  | _ => none

/-- The full raw-path decode of a typed `NameEvent` from a JSON value, as the
`EventJson` wire codec exposes it: structural parse into the raw envelope
(outer `Option`), then validation (inner `Except`). -/
def NameEvent.decode (j : Json) : Option (Except InvalidInput NameEvent) :=
  (raw.NameEvent.fromJson j).map NameEvent.try_from_raw

/-- The full raw-path decode of a `NameEventContent` from a JSON value:
structural parse then validation. -/
def NameEventContent.decode (j : Json) : Option (Except InvalidInput NameEventContent) :=
  (raw.NameEventContent.fromJson j).map NameEventContent.try_from_raw

/-- The kind invariant of room-name content as the spec states it: the stored
name is `None`, or present with serialized byte length between 1 and 255
inclusive. -/
def ContentValid (c : NameEventContent) : Prop :=
  match c.name with
  | none => True
  | some s => 1 ≤ s.utf8ByteSize ∧ s.utf8ByteSize ≤ 255

/-- Direct construction from an optional name, following the spec's words for
the non-raw route: `None` is mapped to the no-name content, `Some s` is passed
to the validating constructor. -/
def directConstruct : Option String → Except InvalidInput NameEventContent
  | none => Except.ok { name := none }
  | some s => NameEventContent.new s

/-- Modelled from the spec: the discriminant is an open string identifying an
event's semantic kind; unrecognized values are representable as a custom
variant rather than rejected. Embeds the crate's `EventType` enum, which is
not part of the given sources; it serializes to its discriminant string. -/
inductive EventType where
  | RoomName
  | Typing
  | Custom (s : String)
deriving DecidableEq, Repr

/-- The discriminant string an `EventType` value serializes to. -/
def EventType.toDiscriminant : EventType → String
  | EventType.RoomName => "m.room.name"
  | EventType.Typing => "m.typing"
  | EventType.Custom s => s

/-- The payload of a `TypingEvent` (`src/events/typing.rs`). -/
structure TypingEventContent where
  user_ids : List String
deriving DecidableEq, Repr

/-- The typed `TypingEvent` (`src/events/typing.rs` lines 6-14): it stores an
`event_type` field, serialized under the key `"type"` via
`#[serde(rename="type")]`. -/
structure TypingEvent where
  content : TypingEventContent
  event_type : EventType
  room_id : String
deriving DecidableEq, Repr

/-- Serde serialization of `TypingEventContent`. -/
def TypingEventContent.toJson (c : TypingEventContent) : Json :=
  Json.obj [("user_ids", Json.arr (c.user_ids.map Json.str))]

/-- Serde serialization of `TypingEvent`: a derived struct serializer, fields
in declaration order; the `"type"` key carries the value of the stored
`event_type` field (the rename attribute only renames the key). -/
def TypingEvent.toJson (e : TypingEvent) : Json :=
  Json.obj
    [("content", e.content.toJson),
     ("type", Json.str e.event_type.toDiscriminant),
     ("room_id", Json.str e.room_id)]

/-- The 256-byte string of the source's `name_fails_validation_when_too_long`
test: 256 repeated `'X'` characters. -/
def longName : String := String.mk (List.replicate 256 'X')

set_option maxRecDepth 8192

theorem utf8ByteSize_empty : ("" : String).utf8ByteSize = 0 := rfl

theorem ne_empty_of_size_pos {s : String} (h : 1 ≤ s.utf8ByteSize) : ¬ s = "" := by
  intro he
  rw [he, utf8ByteSize_empty] at h
  omega

theorem new_ok_empty (s : String) (h : s.utf8ByteSize = 0) :
    NameEventContent.new s = Except.ok { name := none } := by
  unfold NameEventContent.new
  rw [if_pos h]

theorem new_ok_inbounds (s : String) (h1 : 1 ≤ s.utf8ByteSize) (h2 : s.utf8ByteSize ≤ 255) :
    NameEventContent.new s = Except.ok { name := some s } := by
  unfold NameEventContent.new
  rw [if_neg (by omega), if_pos h2]

theorem new_err_overlong (s : String) (h : 255 < s.utf8ByteSize) :
    NameEventContent.new s =
      Except.error { reason := "a room name cannot be more than 255 bytes" } := by
  unfold NameEventContent.new
  rw [if_neg (by omega), if_neg (by omega)]

/-- Claim C1: every `NameEventContent` value reachable through the public
construction routes — the validating constructor `NameEventContent::new` or
the raw-validation path `TryFromRaw::try_from_raw` — satisfies the kind
invariant: its stored name is `None`, or `Some s` with serialized byte length
of `s` between 1 and 255 inclusive; in particular `Some` of the empty string
is never stored. -/
theorem construction_routes_respect_invariant :
    (∀ (s : String) (c : NameEventContent),
        NameEventContent.new s = Except.ok c → ContentValid c)
    ∧ (∀ (r : raw.NameEventContent) (c : NameEventContent),
        NameEventContent.try_from_raw r = Except.ok c → ContentValid c) := by
  have hnew : ∀ (s : String) (c : NameEventContent),
      NameEventContent.new s = Except.ok c → ContentValid c := by
    intro s c h
    unfold NameEventContent.new at h
    by_cases h0 : s.utf8ByteSize = 0
    · rw [if_pos h0] at h
      injection h with h
      subst h
      trivial
    · rw [if_neg h0] at h
      by_cases h255 : s.utf8ByteSize ≤ 255
      · rw [if_pos h255] at h
        injection h with h
        subst h
        exact ⟨by omega, h255⟩
      · rw [if_neg h255] at h
        exact Except.noConfusion h
  refine ⟨hnew, ?_⟩
  intro r c h
  unfold NameEventContent.try_from_raw at h
  cases hr : r.name with
  | none =>
    rw [hr] at h
    injection h with h
    subst h
    trivial
  | some s =>
    rw [hr] at h
    exact hnew s c h

/-- Witness for C1: both routes applied at concrete inputs yield contents
satisfying the invariant. -/
theorem construction_routes_respect_invariant_witness :
    ContentValid { name := some "hi" } ∧ ContentValid { name := none } :=
  ⟨construction_routes_respect_invariant.1 "hi" { name := some "hi" } rfl,
   construction_routes_respect_invariant.2 { name := none } { name := none } rfl⟩

/-- Claim C2: for every string `s` with byte length between 1 and 255
inclusive, `NameEventContent::new s` returns `Ok` and the `name()` accessor
(the stored field) on the result returns `Some s`; `new` of the empty string
returns `Ok` with the accessor returning `None`. -/
theorem new_accepts_valid_names :
    (∀ s : String, 1 ≤ s.utf8ByteSize → s.utf8ByteSize ≤ 255 →
        NameEventContent.new s = Except.ok { name := some s })
    ∧ NameEventContent.new "" = Except.ok { name := none } :=
  ⟨fun s h1 h2 => new_ok_inbounds s h1 h2, new_ok_empty "" rfl⟩

/-- Witness for C2: a 13-byte name is accepted and stored as `Some`. -/
theorem new_accepts_valid_names_witness :
    NameEventContent.new "The room name" =
      Except.ok { name := some "The room name" } :=
  new_accepts_valid_names.1 "The room name" (by decide) (by decide)

/-- Claim C3: for every string whose byte length exceeds 255,
`NameEventContent::new` returns an `InvalidInput` error carrying a
human-readable reason, and never a content value. -/
theorem new_rejects_overlong_names :
    ∀ s : String, 255 < s.utf8ByteSize →
      NameEventContent.new s =
        Except.error { reason := "a room name cannot be more than 255 bytes" } :=
  fun s h => new_err_overlong s h

/-- Witness for C3: the 256-byte string of 256 repeated `'X'` characters is
rejected. -/
theorem new_rejects_overlong_names_witness :
    NameEventContent.new longName =
      Except.error { reason := "a room name cannot be more than 255 bytes" } :=
  new_rejects_overlong_names longName (by decide)

/-- Claim C4: a raw room-name content whose `name` field is JSON `null`,
absent, or the empty string decodes through the raw path (structural
deserialization of `raw::NameEventContent` followed by
`TryFromRaw::try_from_raw`) to a success whose name is `None`: the folding
happens before the length check, so such inputs never reach the too-long
error path. -/
theorem raw_empty_forms_fold_to_none :
    NameEventContent.decode (Json.obj []) = some (Except.ok { name := none })
    ∧ NameEventContent.decode (Json.obj [("name", Json.null)]) =
        some (Except.ok { name := none })
    ∧ NameEventContent.decode (Json.obj [("name", Json.str "")]) =
        some (Except.ok { name := none }) :=
  ⟨rfl, rfl, rfl⟩

/-- Claim C5: the raw-validation route and the direct construction route
(`None` mapped to no-name, `Some s` passed to `NameEventContent::new`) agree
on every optional raw name value: they are equal as functions into
`Except`, so they accept exactly the same values and produce equal stored
names. -/
theorem raw_and_direct_construction_agree :
    ∀ o : Option String,
      NameEventContent.try_from_raw { name := o } = directConstruct o := by
  intro o
  cases o <;> rfl

/-- A concrete raw envelope whose previous-content name is 256 bytes long. -/
def rawLongPrev : raw.NameEvent :=
  { content := { name := some "The room name" }
    event_id := "$h29iv0s8:example.com"
    origin_server_ts := 1
    prev_content := some { name := some longName }
    room_id := none
    sender := "@carl:example.com"
    state_key := ""
    unsigned := { age := none } }

/-- A concrete raw envelope with every optional field populated, mirroring
the source's `serialization_with_all_fields` test data. -/
def rawFull : raw.NameEvent :=
  { content := { name := some "The room name" }
    event_id := "$h29iv0s8:example.com"
    origin_server_ts := 1
    prev_content := some { name := some "The old name" }
    room_id := some "!n8f893n9:example.com"
    sender := "@carl:example.com"
    state_key := ""
    unsigned := { age := some 100 } }

/-- A concrete typed event with every optional field absent, mirroring the
source's `serialization_with_optional_fields_as_none` test data. -/
def sampleEvent : NameEvent :=
  { content := { name := some "The room name" }
    event_id := "$h29iv0s8:example.com"
    origin_server_ts := 1
    prev_content := none
    room_id := none
    sender := "@carl:example.com"
    state_key := ""
    unsigned := { age := none } }

/-- Claim C6: validating a raw `NameEvent` validates an optional
`prev_content` snapshot with exactly the same per-kind rules as the main
content (the same `try_from_raw` function), and any content or prev_content
validation failure short-circuits with that error, producing no typed
event. -/
theorem name_event_validation_short_circuits :
    (∀ (r : raw.NameEvent) (err : InvalidInput),
        NameEventContent.try_from_raw r.content = Except.error err →
        NameEvent.try_from_raw r = Except.error err)
    ∧ (∀ (r : raw.NameEvent) (p : raw.NameEventContent) (c : NameEventContent)
          (err : InvalidInput),
        NameEventContent.try_from_raw r.content = Except.ok c →
        r.prev_content = some p →
        NameEventContent.try_from_raw p = Except.error err →
        NameEvent.try_from_raw r = Except.error err) := by
  constructor
  · intro r err h
    unfold NameEvent.try_from_raw
    rw [h]
  · intro r p c err hc hp hpe
    unfold NameEvent.try_from_raw
    rw [hc, hp, Option.map_some', hpe]
    rfl

/-- Witness for C6: a raw envelope with a valid content but a 256-byte
previous-content name fails validation with the length error. -/
theorem name_event_validation_short_circuits_witness :
    NameEvent.try_from_raw rawLongPrev =
      Except.error { reason := "a room name cannot be more than 255 bytes" } :=
  name_event_validation_short_circuits.2 rawLongPrev { name := some longName }
    { name := some "The room name" }
    { reason := "a room name cannot be more than 255 bytes" }
    rfl rfl (new_err_overlong longName (by decide))

/-- Claim C7: when content and optional prev_content both validate,
`TryFromRaw::try_from_raw` on a raw `NameEvent` returns `Ok`, and the typed
event carries every metadata field (`event_id`, `origin_server_ts`,
`room_id`, `sender`, `state_key`, `unsigned`) unchanged from the raw
envelope. -/
theorem name_event_metadata_preserved :
    ∀ (r : raw.NameEvent) (c : NameEventContent) (pc : Option NameEventContent),
      NameEventContent.try_from_raw r.content = Except.ok c →
      optionTranspose (r.prev_content.map NameEventContent.try_from_raw) =
        Except.ok pc →
      NameEvent.try_from_raw r =
        Except.ok
          { content := c
            event_id := r.event_id
            origin_server_ts := r.origin_server_ts
            prev_content := pc
            room_id := r.room_id
            sender := r.sender
            state_key := r.state_key
            unsigned := r.unsigned } := by
  intro r c pc hc hp
  unfold NameEvent.try_from_raw
  rw [hc, hp]

/-- Witness for C7: the fully-populated raw envelope validates and every
metadata field is carried over unchanged. -/
theorem name_event_metadata_preserved_witness :
    NameEvent.try_from_raw rawFull =
      Except.ok
        { content := { name := some "The room name" }
          event_id := "$h29iv0s8:example.com"
          origin_server_ts := 1
          prev_content := some { name := some "The old name" }
          room_id := some "!n8f893n9:example.com"
          sender := "@carl:example.com"
          state_key := ""
          unsigned := { age := some 100 } } :=
  name_event_metadata_preserved rawFull { name := some "The room name" }
    (some { name := some "The old name" }) rfl rfl

/-- Claim C8: serializing a typed `NameEvent` never emits an `"unsigned"` key
when the unsigned data is empty, never emits a `"prev_content"` key when
`prev_content` is `None`, and never a `"room_id"` key when `room_id` is
`None`: the keys are absent from the output object entirely. -/
theorem serialization_omits_absent_optionals :
    ∀ e : NameEvent,
      (e.unsigned.is_empty = true → "unsigned" ∉ jsonKeys e.toJson)
      ∧ (e.prev_content = none → "prev_content" ∉ jsonKeys e.toJson)
      ∧ (e.room_id = none → "room_id" ∉ jsonKeys e.toJson) := by
  intro e
  obtain ⟨c, eid, ts, pc, rid, snd, sk, ⟨age⟩⟩ := e
  refine ⟨?_, ?_, ?_⟩ <;> intro h <;> cases pc <;> cases rid <;> cases age <;>
    simp_all [NameEvent.toJson, jsonKeys, UnsignedData.is_empty,
      NameEventContent.toJson, UnsignedData.toJson]

/-- Witness for C8: the serialized form of the all-optionals-absent sample
event contains none of the three keys. -/
theorem serialization_omits_absent_optionals_witness :
    "unsigned" ∉ jsonKeys sampleEvent.toJson
    ∧ "prev_content" ∉ jsonKeys sampleEvent.toJson
    ∧ "room_id" ∉ jsonKeys sampleEvent.toJson :=
  ⟨(serialization_omits_absent_optionals sampleEvent).1 rfl,
   (serialization_omits_absent_optionals sampleEvent).2.1 rfl,
   (serialization_omits_absent_optionals sampleEvent).2.2 rfl⟩

/-- Counterexample for C9: the serialized `"type"` key of a `TypingEvent` is
read from its stored `event_type` field, not emitted as a fixed per-kind
literal: two typing events differing only in that field serialize different
tags, and the first one's tag (`"m.room.name"`) disagrees with its typing
content shape. -/
theorem typing_tag_read_from_stored_field :
    jsonLookup
      (TypingEvent.toJson
        { content := { user_ids := [] }
          event_type := EventType.RoomName
          room_id := "!n8f893n9:example.com" }) "type" =
      some (Json.str "m.room.name")
    ∧ jsonLookup
      (TypingEvent.toJson
        { content := { user_ids := [] }
          event_type := EventType.Typing
          room_id := "!n8f893n9:example.com" }) "type" =
      some (Json.str "m.typing")
    ∧ ("m.room.name" : String) ≠ "m.typing" :=
  ⟨rfl, rfl, by decide⟩

/-- Claim C9 as amended: for `NameEvent` the serialized `"type"` tag is the
fixed literal `"m.room.name"`, independent of the value; but for
`TypingEvent` the tag is read from the stored `event_type` field (it equals
that field's discriminant string), so for that kind the tag can disagree
with the content shape. -/
theorem serialized_tag_fixed_only_for_name_event :
    (∀ e : NameEvent, jsonLookup e.toJson "type" = some (Json.str "m.room.name"))
    ∧ (∀ t : TypingEvent,
        jsonLookup t.toJson "type" = some (Json.str t.event_type.toDiscriminant)) :=
  ⟨fun _ => rfl, fun _ => rfl⟩

theorem content_fromJson_toJson (c : NameEventContent) (h : ContentValid c) :
    raw.NameEventContent.fromJson c.toJson = some { name := c.name } := by
  obtain ⟨n⟩ := c
  cases n with
  | none => rfl
  | some s =>
    obtain ⟨h1, h2⟩ := h
    have hs : ¬ s = "" := ne_empty_of_size_pos h1
    simp [NameEventContent.toJson, raw.NameEventContent.fromJson, parseNameField,
      getKey, hs]

theorem content_validate_roundtrip (c : NameEventContent) (h : ContentValid c) :
    NameEventContent.try_from_raw { name := c.name } = Except.ok c := by
  obtain ⟨n⟩ := c
  cases n with
  | none => rfl
  | some s =>
    obtain ⟨h1, h2⟩ := h
    exact new_ok_inbounds s h1 h2

theorem unsigned_fromJson_toJson (u : UnsignedData) :
    UnsignedData.fromJson u.toJson = some u := by
  obtain ⟨age⟩ := u
  cases age <;> rfl

/-- Claim C10: for every typed `NameEvent` whose content name is
`Some "The room name"` (and whose optional previous content, like every
typed content, satisfies the kind invariant), serializing to JSON and then
decoding and validating back — structural raw deserialization followed by
`TryFromRaw::try_from_raw` — succeeds and yields the same typed event in
every observable field. -/
theorem name_event_round_trip :
    ∀ e : NameEvent,
      e.content.name = some "The room name" →
      (∀ p, e.prev_content = some p → ContentValid p) →
      NameEvent.decode e.toJson = some (Except.ok e) := by
  intro e hname hprev
  obtain ⟨⟨n⟩, eid, ts, pc, rid, snd, sk, ⟨age⟩⟩ := e
  have hn : n = some "The room name" := hname
  subst hn
  have hmain : NameEventContent.new "The room name" =
      Except.ok { name := some "The room name" } :=
    new_ok_inbounds "The room name" (by decide) (by decide)
  cases pc with
  | none =>
    cases rid <;> cases age <;>
      simp only [NameEvent.decode, NameEvent.toJson, raw.NameEvent.fromJson,
        raw.NameEventContent.fromJson, NameEventContent.toJson, parseNameField,
        getKey, Json.asStr, Json.asTime, UnsignedData.toJson, UnsignedData.fromJson,
        UnsignedData.is_empty, Option.isNone, List.cons_append, List.nil_append,
        String.reduceEq, reduceIte, reduceCtorEq, Option.map_some', Option.map_none', Option.some_bind,
        Option.bind_eq_bind, NameEvent.try_from_raw, NameEventContent.try_from_raw,
        optionTranspose, hmain]
  | some p =>
    have hpv : ContentValid p := hprev p rfl
    obtain ⟨pn⟩ := p
    cases pn with
    | none =>
      cases rid <;> cases age <;>
        simp only [NameEvent.decode, NameEvent.toJson, raw.NameEvent.fromJson,
          raw.NameEventContent.fromJson, NameEventContent.toJson, parseNameField,
          getKey, Json.asStr, Json.asTime, UnsignedData.toJson, UnsignedData.fromJson,
          UnsignedData.is_empty, Option.isNone, List.cons_append, List.nil_append,
          String.reduceEq, reduceIte, reduceCtorEq, Option.map_some', Option.map_none', Option.some_bind,
          Option.bind_eq_bind, NameEvent.try_from_raw, NameEventContent.try_from_raw,
          optionTranspose, hmain]
    | some s =>
      obtain ⟨h1, h2⟩ := hpv
      have hs : ¬ s = "" := ne_empty_of_size_pos h1
      have hnew : NameEventContent.new s = Except.ok { name := some s } :=
        new_ok_inbounds s h1 h2
      cases rid <;> cases age <;>
        simp only [NameEvent.decode, NameEvent.toJson, raw.NameEvent.fromJson,
          raw.NameEventContent.fromJson, NameEventContent.toJson, parseNameField,
          getKey, Json.asStr, Json.asTime, UnsignedData.toJson, UnsignedData.fromJson,
          UnsignedData.is_empty, Option.isNone, List.cons_append, List.nil_append,
          String.reduceEq, reduceIte, reduceCtorEq, Option.map_some', Option.map_none', Option.some_bind,
          Option.bind_eq_bind, NameEvent.try_from_raw, NameEventContent.try_from_raw,
          optionTranspose, if_neg hs, hnew, hmain]

/-- Witness for C10: the all-fields-populated sample event round-trips. -/
theorem name_event_round_trip_witness :
    NameEvent.decode
        (NameEvent.toJson
          { content := { name := some "The room name" }
            event_id := "$h29iv0s8:example.com"
            origin_server_ts := 1
            prev_content := some { name := some "The old name" }
            room_id := some "!n8f893n9:example.com"
            sender := "@carl:example.com"
            state_key := ""
            unsigned := { age := some 100 } }) =
      some (Except.ok
        { content := { name := some "The room name" }
          event_id := "$h29iv0s8:example.com"
          origin_server_ts := 1
          prev_content := some { name := some "The old name" }
          room_id := some "!n8f893n9:example.com"
          sender := "@carl:example.com"
          state_key := ""
          unsigned := { age := some 100 } }) :=
  name_event_round_trip
    { content := { name := some "The room name" }
      event_id := "$h29iv0s8:example.com"
      origin_server_ts := 1
      prev_content := some { name := some "The old name" }
      room_id := some "!n8f893n9:example.com"
      sender := "@carl:example.com"
      state_key := ""
      unsigned := { age := some 100 } }
    rfl
    (by
      intro p hp
      injection hp with hp
      subst hp
      exact ⟨by decide, by decide⟩)
